import Mathlib

/-
Verification of the go-graphsync peer response sender
(responsemanager/peerresponsemanager/peerresponsesender.go).

The sender's two collaborators, the linktracker and responsebuilder packages, are
not among the sources under study; their state and operations are modelled from the
specification (each such definition carries a doc comment starting with
`Modelled from the spec:`). Everything else is a direct shallow embedding of
peerresponsesender.go: Go byte slices become `Option (List Nat)` (`none` is a nil
slice), the capacity-one outgoingWork channel becomes its occupancy count, and the
single-threaded send loop becomes an explicit function from the builder queue to the
sequence of transport calls.
-/

namespace GraphSync

/-- Request identifiers: graphsync.RequestID is an integer handle. -/
abbrev RequestID := Nat

/-- Content addresses (ipld.Link): the sender only compares links for equality, so
they are abstracted to natural numbers. -/
abbrev Link := Nat

/-- Raw payload bytes: a Go byte slice, one Nat per byte. -/
abbrev Bytes := List Nat

/-- graphsync.ExtensionData: a named opaque byte payload attached to responses. -/
structure ExtensionData where
  name : Nat
  payload : Bytes
deriving DecidableEq

/-- The graphsync response status codes the peer response sender emits or relays. -/
inductive ResponseStatusCode where
  | requestCompletedFull
  | requestCompletedPartial
  | requestPaused
  | partialResponse
  | requestFailedContentNotFound
  | requestFailedUnknown
  | requestCancelled
deriving DecidableEq

/-- A raw block as placed on the wire: its content address and its payload (the Go
code builds it with blocks.NewBlockWithCid(data, cidLink.Cid); the content address
is assumed to match the payload, since the sender adds the block either way and the
mismatch case only logs). -/
structure Block where
  cid : Link
  data : Bytes
deriving DecidableEq

/-- max block size is the maximum size for batching blocks in a single payload
(const maxBlockSize uint64 = 512 * 1024). -/
def maxBlockSize : Nat := 512 * 1024

/-- Modelled from the spec: the linktracker package is missing from the sources
under study. Per the spec's data model, a LinkTracker keeps a per-peer mapping
request → sequence of (link, blockWasPresent) traversals; the mapping
link → count-of-requests-that-queued-its-block is derived from it. -/
structure LinkTracker where
  byRequest : List (RequestID × List (Link × Bool))
deriving DecidableEq

/-- Modelled from the spec: linktracker.New creates an empty tracker. -/
def LinkTracker.new : LinkTracker := ⟨[]⟩

/-- Appends one traversal entry to the given request key of an association list,
inserting the key when it is absent. -/
def addTraversal : List (RequestID × List (Link × Bool)) → RequestID → (Link × Bool) →
    List (RequestID × List (Link × Bool))
  | [], rid, e => [(rid, [e])]
  | (r, es) :: rest, rid, e =>
      if r = rid then (r, es ++ [e]) :: rest else (r, es) :: addTraversal rest rid e

/-- Modelled from the spec: LinkTracker.RecordLinkTraversal records that a request
traversed a link, with or without its block attached. -/
def LinkTracker.RecordLinkTraversal (lt : LinkTracker) (rid : RequestID) (target : Link)
    (blockPresent : Bool) : LinkTracker :=
  ⟨addTraversal lt.byRequest rid (target, blockPresent)⟩

/-- Whether a stored request has queued the given link with its block attached. -/
def hasBlockEntryFor (target : Link) (p : RequestID × List (Link × Bool)) : Bool :=
  p.2.any (fun e => e.1 == target && e.2)

/-- Modelled from the spec: LinkTracker.BlockRefCount counts the requests for which
the link has been queued with its block attached. -/
def LinkTracker.BlockRefCount (lt : LinkTracker) (target : Link) : Nat :=
  (lt.byRequest.filter (hasBlockEntryFor target)).length

/-- Modelled from the spec: LinkTracker.FinishRequest reports whether every link the
request traversed had its block present, and removes all bookkeeping for the
request. -/
def LinkTracker.FinishRequest (lt : LinkTracker) (rid : RequestID) : Bool × LinkTracker :=
  ((lt.byRequest.filter (fun p => p.1 == rid)).all (fun p => p.2.all (fun e => e.2)),
   ⟨lt.byRequest.filter (fun p => p.1 != rid)⟩)

/-- One record accumulated by a response builder: a status code for a request, a
link-presence record, or an extension payload. -/
inductive ResponseRecord where
  | status (rid : RequestID) (code : ResponseStatusCode)
  | link (rid : RequestID) (target : Link) (blockPresent : Bool)
  | extensionRecord (rid : RequestID) (ext : ExtensionData)
deriving DecidableEq

/-- Modelled from the spec: the responsebuilder package is missing from the sources
under study. A ResponseBuilder accumulates, in order, the response records and the
raw blocks of one outgoing wire message, plus the running byte total of the attached
blocks. -/
structure ResponseBuilder where
  records : List ResponseRecord
  outgoingBlocks : List Block
  blkSize : Nat
deriving DecidableEq

/-- Modelled from the spec: responsebuilder.New creates an empty builder. -/
def ResponseBuilder.new : ResponseBuilder := ⟨[], [], 0⟩

/-- Modelled from the spec: AddResponseCode appends a status record. -/
def ResponseBuilder.AddResponseCode (rb : ResponseBuilder) (rid : RequestID)
    (code : ResponseStatusCode) : ResponseBuilder :=
  { rb with records := rb.records ++ [ResponseRecord.status rid code] }

/-- Modelled from the spec: AddLink appends a link-presence record. -/
def ResponseBuilder.AddLink (rb : ResponseBuilder) (rid : RequestID) (target : Link)
    (blockPresent : Bool) : ResponseBuilder :=
  { rb with records := rb.records ++ [ResponseRecord.link rid target blockPresent] }

/-- Modelled from the spec: AddExtensionData appends an extension record. -/
def ResponseBuilder.AddExtensionData (rb : ResponseBuilder) (rid : RequestID)
    (ext : ExtensionData) : ResponseBuilder :=
  { rb with records := rb.records ++ [ResponseRecord.extensionRecord rid ext] }

/-- Modelled from the spec: AddBlock attaches a raw block and grows the running
block byte total by the block's payload size. -/
def ResponseBuilder.AddBlock (rb : ResponseBuilder) (blk : Block) : ResponseBuilder :=
  { rb with outgoingBlocks := rb.outgoingBlocks ++ [blk],
            blkSize := rb.blkSize + blk.data.length }

/-- Modelled from the spec: BlockSize reports the cumulative byte total of the
blocks attached so far. -/
def ResponseBuilder.BlockSize (rb : ResponseBuilder) : Nat := rb.blkSize

/-- Modelled from the spec: Empty reports whether the builder holds no records and
no blocks. -/
def ResponseBuilder.Empty (rb : ResponseBuilder) : Bool :=
  rb.records.isEmpty && rb.outgoingBlocks.isEmpty

/-- Modelled from the spec: Build assembles the wire batch; the Bool is the error
flag, set exactly when no response records exist but blocks do. The responses and
blocks are returned either way. -/
def ResponseBuilder.Build (rb : ResponseBuilder) :
    List ResponseRecord × List Block × Bool :=
  (rb.records, rb.outgoingBlocks, rb.records.isEmpty && !rb.outgoingBlocks.isEmpty)

/-- The peerResponseSender state: the dedup tracker, the queue of response builders,
and the occupancy of the capacity-one outgoingWork channel. The peer handle, the
context and the locks of the Go struct have no pure-state content of their own; the
send loop is modelled separately, below. -/
structure PeerResponseSender where
  linkTracker : LinkTracker
  responseBuilders : List ResponseBuilder
  outgoingWork : Nat
deriving DecidableEq

/-- NewResponseSender: fresh tracker, no builders, empty wake-up channel. -/
def PeerResponseSender.initial : PeerResponseSender := ⟨LinkTracker.new, [], 0⟩

/-- The last builder of the queue (only used when the queue is not empty). -/
def lastBuilder (bs : List ResponseBuilder) : ResponseBuilder :=
  bs.getLast?.getD ResponseBuilder.new

/-- shouldBeginNewResponse: a new builder is needed when the queue is empty, or when
a nonzero incoming block size would push the last builder past maxBlockSize. -/
def shouldBeginNewResponse (responseBuilders : List ResponseBuilder) (blkSize : Nat) :
    Bool :=
  if responseBuilders.isEmpty then true
  else if blkSize = 0 then false
  else decide (maxBlockSize < (lastBuilder responseBuilders).BlockSize + blkSize)

/-- buildResponse: open a new builder when needed, run the mutation on the last
builder, and report whether that builder is now non-empty. -/
def buildResponse (s : PeerResponseSender) (blkSize : Nat)
    (buildResponseFn : ResponseBuilder → ResponseBuilder) : PeerResponseSender × Bool :=
  let bs := if shouldBeginNewResponse s.responseBuilders blkSize
            then s.responseBuilders ++ [ResponseBuilder.new]
            else s.responseBuilders
  let rb := buildResponseFn (lastBuilder bs)
  ({ s with responseBuilders := bs.dropLast ++ [rb] }, !rb.Empty)

/-- signalWork: non-blocking send on the capacity-one outgoingWork channel; a
redundant signal is dropped. -/
def signalWork (s : PeerResponseSender) : PeerResponseSender :=
  if s.outgoingWork = 0 then { s with outgoingWork := 1 } else s

/-- blockData: the bandwidth-accounting descriptor that SendResponse returns. -/
structure blockData where
  link : Link
  blockSize : Nat
  sendBlock : Bool
deriving DecidableEq

def blockData.Link (bd : blockData) : Link := bd.link

def blockData.BlockSize (bd : blockData) : Nat := bd.blockSize

/-- BlockSizeOnWire: zero when the block is not scheduled for sending. -/
def blockData.BlockSizeOnWire (bd : blockData) : Nat :=
  if !bd.sendBlock then 0 else bd.blockSize

/-- len(data) of a possibly nil Go byte slice. -/
def dataLen : Option Bytes → Nat
  | none => 0
  | some d => d.length

/-- SendResponse: dedup against the tracker, record the traversal, then schedule the
block (when it is to be sent) and the link-presence record, signalling work when the
touched builder is non-empty. -/
def PeerResponseSender.SendResponse (s : PeerResponseSender) (requestID : RequestID)
    (target : Link) (data : Option Bytes) : PeerResponseSender × blockData :=
  let hasBlock := data.isSome
  let sendBlock := hasBlock && (s.linkTracker.BlockRefCount target == 0)
  let blkSize := dataLen data
  let bd : blockData := ⟨target, blkSize, sendBlock⟩
  let s1 : PeerResponseSender :=
    { s with linkTracker := s.linkTracker.RecordLinkTraversal requestID target hasBlock }
  let r := buildResponse s1 bd.BlockSizeOnWire (fun responseBuilder =>
    (if sendBlock then responseBuilder.AddBlock ⟨target, data.getD []⟩
     else responseBuilder).AddLink requestID target hasBlock)
  (if r.2 then signalWork r.1 else r.1, bd)

/-- finish: append a status record for the request and signal work when the touched
builder is non-empty. -/
def PeerResponseSender.finish (s : PeerResponseSender) (rid : RequestID)
    (status : ResponseStatusCode) : PeerResponseSender :=
  let r := buildResponse s 0 (fun rb => rb.AddResponseCode rid status)
  if r.2 then signalWork r.1 else r.1

/-- FinishRequest: compute Full vs Partial from the link tracker, clear the
request's bookkeeping, and append that status. -/
def PeerResponseSender.FinishRequest (s : PeerResponseSender) (rid : RequestID) :
    PeerResponseSender × ResponseStatusCode :=
  let r := s.linkTracker.FinishRequest rid
  let status := if r.1 then ResponseStatusCode.requestCompletedFull
                else ResponseStatusCode.requestCompletedPartial
  (({ s with linkTracker := r.2 } : PeerResponseSender).finish rid status, status)

/-- FinishWithError: clear the request's bookkeeping (the completeness result is
dropped) and append the externally supplied status. -/
def PeerResponseSender.FinishWithError (s : PeerResponseSender) (rid : RequestID)
    (status : ResponseStatusCode) : PeerResponseSender :=
  let r := s.linkTracker.FinishRequest rid
  ({ s with linkTracker := r.2 } : PeerResponseSender).finish rid status

/-- PauseRequest: append a RequestPaused status without touching the tracker. -/
def PeerResponseSender.PauseRequest (s : PeerResponseSender) (rid : RequestID) :
    PeerResponseSender :=
  s.finish rid ResponseStatusCode.requestPaused

/-- SendExtensionData: append an extension record and signal work when the touched
builder is non-empty. -/
def PeerResponseSender.SendExtensionData (s : PeerResponseSender) (rid : RequestID)
    (ext : ExtensionData) : PeerResponseSender :=
  let r := buildResponse s 0 (fun rb => rb.AddExtensionData rid ext)
  if r.2 then signalWork r.1 else r.1

/-- Outcome of the wait after one transport send: the transport's done signal fired,
or the sender's context was cancelled. -/
inductive WaitOutcome where
  | transportDone
  | ctxCancelled
deriving DecidableEq

/-- One message handed to PeerMessageHandler.SendResponse. -/
structure SentMessage where
  responses : List ResponseRecord
  blks : List Block
deriving DecidableEq

/-- The message built from one builder; the loop hands it to the transport even when
Build's error flag is set (the error is only logged). -/
def buildMessage (rb : ResponseBuilder) : SentMessage :=
  ⟨rb.Build.1, rb.Build.2.1⟩

/-- The loop body of sendResponseMessages: skip empty builders; for each other
builder, build and send it, then wait for the transport done signal or for context
cancellation - either outcome lets the loop continue with the next builder. -/
def drainBuilders : List ResponseBuilder → List WaitOutcome → List SentMessage
  | [], _ => []
  | b :: rest, waits =>
      if b.Empty then drainBuilders rest waits
      else buildMessage b :: drainBuilders rest waits.tail

/-- sendResponseMessages: remove the entire builder queue under the lock, then send
each non-empty builder in queue order. -/
def sendResponseMessages (s : PeerResponseSender) (waits : List WaitOutcome) :
    PeerResponseSender × List SentMessage :=
  ({ s with responseBuilders := [] }, drainBuilders s.responseBuilders waits)

/-- One iteration of run's select: return without any send when the context is done;
otherwise consume a pending wake-up, if any, and drain the queue. -/
def runIteration (ctxDone : Bool) (s : PeerResponseSender) (waits : List WaitOutcome) :
    PeerResponseSender × List SentMessage :=
  if ctxDone then (s, [])
  else if s.outgoingWork = 0 then (s, [])
  else sendResponseMessages { s with outgoingWork := s.outgoingWork - 1 } waits

/-- One concurrent-caller operation on the sender. -/
inductive SenderOp where
  | sendResponse (rid : RequestID) (target : Link) (data : Option Bytes)
  | sendExtensionData (rid : RequestID) (ext : ExtensionData)
  | finishRequest (rid : RequestID)
  | finishWithError (rid : RequestID) (status : ResponseStatusCode)
  | pauseRequest (rid : RequestID)
deriving DecidableEq

def applyOp (s : PeerResponseSender) : SenderOp → PeerResponseSender
  | .sendResponse rid target d => (s.SendResponse rid target d).1
  | .sendExtensionData rid ext => s.SendExtensionData rid ext
  | .finishRequest rid => (s.FinishRequest rid).1
  | .finishWithError rid status => s.FinishWithError rid status
  | .pauseRequest rid => s.PauseRequest rid

def runOps (s : PeerResponseSender) : List SenderOp → PeerResponseSender
  | [] => s
  | op :: rest => runOps (applyOp s op) rest

/-- A SendResponse call: request, link, payload. -/
abbrev SendCall := RequestID × Link × Option Bytes

/-- How many calls of a SendResponse sequence schedule a block payload for the given
link. -/
def countBlockSends (s : PeerResponseSender) (target : Link) : List SendCall → Nat
  | [] => 0
  | c :: rest =>
      let r := s.SendResponse c.1 c.2.1 c.2.2
      (if r.2.sendBlock && (c.2.1 == target) then 1 else 0)
        + countBlockSends r.1 target rest

/-- Total number of blocks scheduled across the builder queue. -/
def totalBlocks (s : PeerResponseSender) : Nat :=
  (s.responseBuilders.map (fun b => b.outgoingBlocks.length)).sum

/-- The well-formedness each builder keeps across every caller operation: its running
byte total matches its blocks, and it is within the cap unless its first block alone
is over the cap and every later block is empty. -/
def builderInv (b : ResponseBuilder) : Prop :=
  b.blkSize = (b.outgoingBlocks.map (fun blk => blk.data.length)).sum ∧
  (b.blkSize ≤ maxBlockSize ∨
    ∃ blk rest, b.outgoingBlocks = blk :: rest ∧ maxBlockSize < blk.data.length ∧
      ∀ r ∈ rest, r.data.length = 0)

/-- All builders of the queue are well-formed. -/
def sendersBuildersOK (s : PeerResponseSender) : Prop :=
  ∀ b ∈ s.responseBuilders, builderInv b

/-- An oversized payload: one byte more than the batching cap. -/
def bigData : Bytes := List.replicate (maxBlockSize + 1) 0

/-- The builder state reached by scheduling one oversized block and then one
zero-length block: the cap-exceeding block is not alone. -/
def oversizedBuilder : ResponseBuilder :=
  ⟨[ResponseRecord.link 1 1 true, ResponseRecord.link 1 2 true],
   [⟨1, bigData⟩, ⟨2, ([] : Bytes)⟩],
   0 + bigData.length + List.length ([] : Bytes)⟩

example : (PeerResponseSender.initial.SendResponse 3 7 (some [1, 2])).2 =
    ⟨7, 2, true⟩ := by decide

example :
    ((PeerResponseSender.initial.SendResponse 3 7 (some [1, 2])).1.SendResponse 4 7
      (some [1, 2])).2 = ⟨7, 2, false⟩ := by decide

theorem signalWork_responseBuilders (s : PeerResponseSender) :
    (signalWork s).responseBuilders = s.responseBuilders := by
  unfold signalWork; split <;> rfl

theorem signalWork_linkTracker (s : PeerResponseSender) :
    (signalWork s).linkTracker = s.linkTracker := by
  unfold signalWork; split <;> rfl

theorem signalWork_outgoingWork_le (s : PeerResponseSender) (h : s.outgoingWork ≤ 1) :
    (signalWork s).outgoingWork ≤ 1 := by
  unfold signalWork; split <;> simp [h]

theorem buildResponse_linkTracker (s : PeerResponseSender) (k : Nat)
    (f : ResponseBuilder → ResponseBuilder) :
    (buildResponse s k f).1.linkTracker = s.linkTracker := rfl

theorem buildResponse_outgoingWork (s : PeerResponseSender) (k : Nat)
    (f : ResponseBuilder → ResponseBuilder) :
    (buildResponse s k f).1.outgoingWork = s.outgoingWork := rfl

theorem shouldBeginNewResponse_zero (bs : List ResponseBuilder) :
    shouldBeginNewResponse bs 0 = bs.isEmpty := by
  unfold shouldBeginNewResponse; by_cases h : bs.isEmpty <;> simp [h]

theorem buildResponse_zero (s : PeerResponseSender) (f : ResponseBuilder → ResponseBuilder) :
    (buildResponse s 0 f).1.responseBuilders =
      if s.responseBuilders.isEmpty then [f ResponseBuilder.new]
      else s.responseBuilders.dropLast ++ [f (lastBuilder s.responseBuilders)] := by
  unfold buildResponse
  by_cases h : s.responseBuilders.isEmpty
  · have h0 : s.responseBuilders = [] := by simpa using h
    simp [shouldBeginNewResponse_zero, h0, lastBuilder]
  · simp [shouldBeginNewResponse_zero, h]

theorem ifSignal_responseBuilders (r : PeerResponseSender × Bool) :
    (if r.2 then signalWork r.1 else r.1).responseBuilders = r.1.responseBuilders := by
  split
  · rw [signalWork_responseBuilders]
  · rfl

theorem ifSignal_linkTracker (r : PeerResponseSender × Bool) :
    (if r.2 then signalWork r.1 else r.1).linkTracker = r.1.linkTracker := by
  split
  · rw [signalWork_linkTracker]
  · rfl

theorem ifSignal_outgoingWork_le (r : PeerResponseSender × Bool)
    (h : r.1.outgoingWork ≤ 1) :
    (if r.2 then signalWork r.1 else r.1).outgoingWork ≤ 1 := by
  split
  · exact signalWork_outgoingWork_le _ h
  · exact h

theorem finish_responseBuilders (s : PeerResponseSender) (rid : RequestID)
    (status : ResponseStatusCode) :
    (s.finish rid status).responseBuilders =
      if s.responseBuilders.isEmpty
      then [ResponseBuilder.new.AddResponseCode rid status]
      else s.responseBuilders.dropLast ++
        [(lastBuilder s.responseBuilders).AddResponseCode rid status] := by
  simp only [PeerResponseSender.finish]
  rw [ifSignal_responseBuilders, buildResponse_zero]

theorem sendExtensionData_responseBuilders (s : PeerResponseSender) (rid : RequestID)
    (ext : ExtensionData) :
    (s.SendExtensionData rid ext).responseBuilders =
      if s.responseBuilders.isEmpty
      then [ResponseBuilder.new.AddExtensionData rid ext]
      else s.responseBuilders.dropLast ++
        [(lastBuilder s.responseBuilders).AddExtensionData rid ext] := by
  simp only [PeerResponseSender.SendExtensionData]
  rw [ifSignal_responseBuilders, buildResponse_zero]

theorem hasBlockEntryFor_append (t : Link) (r : RequestID) (es : List (Link × Bool))
    (e : Link × Bool) :
    hasBlockEntryFor t (r, es ++ [e]) =
      (hasBlockEntryFor t (r, es) || (e.1 == t && e.2)) := by
  simp [hasBlockEntryFor, List.any_append]

theorem countP_addTraversal_le (t : Link) :
    ∀ (l : List (RequestID × List (Link × Bool))) (rid : RequestID) (e : Link × Bool),
      l.countP (hasBlockEntryFor t) ≤ (addTraversal l rid e).countP (hasBlockEntryFor t) := by
  intro l
  induction l with
  | nil => intro rid e; simp [addTraversal]
  | cons p rest ih =>
      intro rid e
      obtain ⟨r, es⟩ := p
      by_cases h : r = rid
      · subst h
        have hadd : addTraversal ((r, es) :: rest) r e = (r, es ++ [e]) :: rest := by
          simp [addTraversal]
        rw [hadd, List.countP_cons, List.countP_cons, hasBlockEntryFor_append]
        cases hp : hasBlockEntryFor t (r, es) <;>
          cases hq : (e.1 == t && e.2) <;> simp [hp, hq]
      · have hadd : addTraversal ((r, es) :: rest) rid e =
            (r, es) :: addTraversal rest rid e := by
          simp [addTraversal, h]
        rw [hadd, List.countP_cons, List.countP_cons]
        exact Nat.add_le_add_right (ih rid e) _

theorem countP_addTraversal_pos (t : Link) :
    ∀ (l : List (RequestID × List (Link × Bool))) (rid : RequestID),
      0 < (addTraversal l rid (t, true)).countP (hasBlockEntryFor t) := by
  intro l
  induction l with
  | nil => intro rid; simp [addTraversal, List.countP_cons, hasBlockEntryFor]
  | cons p rest ih =>
      intro rid
      obtain ⟨r, es⟩ := p
      by_cases h : r = rid
      · subst h
        have hadd : addTraversal ((r, es) :: rest) r (t, true) =
            (r, es ++ [(t, true)]) :: rest := by
          simp [addTraversal]
        rw [hadd, List.countP_cons, hasBlockEntryFor_append]
        simp
      · have hadd : addTraversal ((r, es) :: rest) rid (t, true) =
            (r, es) :: addTraversal rest rid (t, true) := by
          simp [addTraversal, h]
        rw [hadd, List.countP_cons]
        have := ih rid
        omega

theorem blockRefCount_eq_countP (lt : LinkTracker) (t : Link) :
    lt.BlockRefCount t = lt.byRequest.countP (hasBlockEntryFor t) :=
  (List.countP_eq_length_filter _ _).symm

theorem blockRefCount_record_le (lt : LinkTracker) (rid : RequestID) (t t2 : Link)
    (p : Bool) :
    lt.BlockRefCount t ≤ (lt.RecordLinkTraversal rid t2 p).BlockRefCount t := by
  rw [blockRefCount_eq_countP, blockRefCount_eq_countP]
  exact countP_addTraversal_le t lt.byRequest rid (t2, p)

theorem blockRefCount_record_pos (lt : LinkTracker) (rid : RequestID) (t : Link) :
    0 < (lt.RecordLinkTraversal rid t true).BlockRefCount t := by
  rw [blockRefCount_eq_countP]
  exact countP_addTraversal_pos t lt.byRequest rid

theorem sendResponse_bd (s : PeerResponseSender) (rid : RequestID) (t : Link)
    (d : Option Bytes) :
    (s.SendResponse rid t d).2 =
      ⟨t, dataLen d, d.isSome && (s.linkTracker.BlockRefCount t == 0)⟩ := rfl

theorem sendResponse_linkTracker (s : PeerResponseSender) (rid : RequestID) (t : Link)
    (d : Option Bytes) :
    (s.SendResponse rid t d).1.linkTracker =
      s.linkTracker.RecordLinkTraversal rid t d.isSome := by
  simp only [PeerResponseSender.SendResponse]
  rw [ifSignal_linkTracker, buildResponse_linkTracker]

theorem dropLast_append_lastBuilder (bs : List ResponseBuilder) (h : bs ≠ []) :
    bs.dropLast ++ [lastBuilder bs] = bs := by
  unfold lastBuilder
  rw [List.getLast?_eq_getLast bs h]
  simp [List.dropLast_append_getLast]

theorem lastBuilder_mem (bs : List ResponseBuilder) (h : bs ≠ []) :
    lastBuilder bs ∈ bs := by
  unfold lastBuilder
  rw [List.getLast?_eq_getLast bs h]
  exact List.getLast_mem h

theorem shouldBeginNewResponse_nil (k : Nat) : shouldBeginNewResponse [] k = true := by
  simp [shouldBeginNewResponse]

theorem buildResponse_responseBuilders (s : PeerResponseSender) (k : Nat)
    (f : ResponseBuilder → ResponseBuilder) :
    (buildResponse s k f).1.responseBuilders =
      if shouldBeginNewResponse s.responseBuilders k
      then s.responseBuilders ++ [f ResponseBuilder.new]
      else s.responseBuilders.dropLast ++ [f (lastBuilder s.responseBuilders)] := by
  unfold buildResponse
  by_cases h : shouldBeginNewResponse s.responseBuilders k
  · simp [h, lastBuilder, List.dropLast_concat, List.getLast?_concat]
  · simp [h]

theorem totalBlocks_buildResponse (s : PeerResponseSender) (k : Nat)
    (f : ResponseBuilder → ResponseBuilder) (c : Nat)
    (hf : ∀ rb, (f rb).outgoingBlocks.length = rb.outgoingBlocks.length + c) :
    totalBlocks (buildResponse s k f).1 = totalBlocks s + c := by
  unfold totalBlocks
  rw [buildResponse_responseBuilders]
  by_cases h : shouldBeginNewResponse s.responseBuilders k
  · simp [h, List.map_append, List.sum_append, hf, ResponseBuilder.new]
  · have hne : s.responseBuilders ≠ [] := by
      intro h0
      rw [h0, shouldBeginNewResponse_nil] at h
      exact h rfl
    conv_rhs => rw [← dropLast_append_lastBuilder s.responseBuilders hne]
    simp [h, List.map_append, List.sum_append, hf]
    omega

theorem totalBlocks_ifSignal (r : PeerResponseSender × Bool) :
    totalBlocks (if r.2 then signalWork r.1 else r.1) = totalBlocks r.1 := by
  unfold totalBlocks
  rw [ifSignal_responseBuilders]

theorem sendResponse_totalBlocks (s : PeerResponseSender) (rid : RequestID) (t : Link)
    (d : Option Bytes) :
    totalBlocks (s.SendResponse rid t d).1 =
      totalBlocks s + (if (s.SendResponse rid t d).2.sendBlock then 1 else 0) := by
  rw [sendResponse_bd]
  simp only [PeerResponseSender.SendResponse]
  rw [totalBlocks_ifSignal]
  by_cases hb : (d.isSome && (s.linkTracker.BlockRefCount t == 0))
  · rw [totalBlocks_buildResponse _ _ _ 1]
    · simp [hb, totalBlocks]
    · intro rb
      simp [hb, ResponseBuilder.AddLink, ResponseBuilder.AddBlock]
  · rw [totalBlocks_buildResponse _ _ _ 0]
    · simp [hb, totalBlocks]
    · intro rb
      simp [hb, ResponseBuilder.AddLink]

theorem drainBuilders_eq :
    ∀ (bs : List ResponseBuilder) (waits : List WaitOutcome),
      drainBuilders bs waits = (bs.filter (fun b => !b.Empty)).map buildMessage := by
  intro bs
  induction bs with
  | nil => intro waits; rfl
  | cons b rest ih =>
      intro waits
      by_cases h : b.Empty
      · simp [drainBuilders, h, ih]
      · simp [drainBuilders, h, ih]

theorem countBlockSends_bound :
    ∀ (calls : List SendCall) (s : PeerResponseSender) (t : Link),
      (s.linkTracker.BlockRefCount t ≠ 0 → countBlockSends s t calls = 0) ∧
      countBlockSends s t calls ≤ 1 := by
  intro calls
  induction calls with
  | nil => intro s t; exact ⟨fun _ => rfl, Nat.zero_le 1⟩
  | cons c rest ih =>
      intro s t
      obtain ⟨rid, tl, d⟩ := c
      have hcnt : countBlockSends s t ((rid, tl, d) :: rest) =
          (if (s.SendResponse rid tl d).2.sendBlock && (tl == t) then 1 else 0)
            + countBlockSends (s.SendResponse rid tl d).1 t rest := rfl
      by_cases hc : ((s.SendResponse rid tl d).2.sendBlock && (tl == t)) = true
      · have hparts : (s.SendResponse rid tl d).2.sendBlock = true ∧ tl = t := by
          simpa using hc
        have hsb := hparts.1
        have htl := hparts.2
        subst htl
        have hsb2 : (d.isSome && (s.linkTracker.BlockRefCount tl == 0)) = true := by
          rw [sendResponse_bd] at hsb
          exact hsb
        have hparts2 : d.isSome = true ∧ s.linkTracker.BlockRefCount tl = 0 := by
          simpa using hsb2
        have hds := hparts2.1
        have hz := hparts2.2
        have hpos : (s.SendResponse rid tl d).1.linkTracker.BlockRefCount tl ≠ 0 := by
          rw [sendResponse_linkTracker, hds]
          exact Nat.pos_iff_ne_zero.mp (blockRefCount_record_pos _ _ _)
        have hrest : countBlockSends (s.SendResponse rid tl d).1 tl rest = 0 :=
          (ih _ tl).1 hpos
        constructor
        · intro h0; exact absurd hz h0
        · rw [hcnt, if_pos hc, hrest]
      · have hcnt0 : countBlockSends s t ((rid, tl, d) :: rest) =
            countBlockSends (s.SendResponse rid tl d).1 t rest := by
          rw [hcnt, if_neg hc, Nat.zero_add]
        constructor
        · intro h0
          rw [hcnt0]
          apply (ih _ t).1
          have hmono := blockRefCount_record_le s.linkTracker rid t tl d.isSome
          rw [sendResponse_linkTracker]
          omega
        · rw [hcnt0]
          exact (ih _ t).2

/-- Claim C1: across any sequence of SendResponse calls from a fresh sender, a block
payload for a given link is scheduled onto the wire (sendBlock = true) at most once;
a call schedules the block exactly when its data is non-nil and the LinkTracker's
BlockRefCount for the link is zero before that call records its traversal; and every
call adds a block to the builder queue only when it scheduled one, so all other
calls for the link contribute a link-presence record with no payload. -/
theorem C1_block_payload_sent_at_most_once (calls : List SendCall) (t : Link) :
    countBlockSends PeerResponseSender.initial t calls ≤ 1
    ∧ (∀ (s : PeerResponseSender) (rid : RequestID) (tl : Link) (d : Option Bytes),
        (s.SendResponse rid tl d).2.sendBlock
          = (d.isSome && (s.linkTracker.BlockRefCount tl == 0)))
    ∧ (∀ (s : PeerResponseSender) (rid : RequestID) (tl : Link) (d : Option Bytes),
        totalBlocks (s.SendResponse rid tl d).1
          = totalBlocks s + (if (s.SendResponse rid tl d).2.sendBlock then 1 else 0)) :=
  ⟨(countBlockSends_bound calls _ t).2,
   fun s rid tl d => by rw [sendResponse_bd],
   fun s rid tl d => sendResponse_totalBlocks s rid tl d⟩

theorem finish_outgoingWork_le (s : PeerResponseSender) (rid : RequestID)
    (status : ResponseStatusCode) (h : s.outgoingWork ≤ 1) :
    (s.finish rid status).outgoingWork ≤ 1 := by
  simp only [PeerResponseSender.finish]
  exact ifSignal_outgoingWork_le _ h

theorem applyOp_outgoingWork_le (s : PeerResponseSender) (op : SenderOp)
    (h : s.outgoingWork ≤ 1) : (applyOp s op).outgoingWork ≤ 1 := by
  cases op with
  | sendResponse rid target d =>
      simp only [applyOp, PeerResponseSender.SendResponse]
      exact ifSignal_outgoingWork_le _ h
  | sendExtensionData rid ext =>
      simp only [applyOp, PeerResponseSender.SendExtensionData]
      exact ifSignal_outgoingWork_le _ h
  | finishRequest rid =>
      simp only [applyOp, PeerResponseSender.FinishRequest]
      exact finish_outgoingWork_le _ _ _ h
  | finishWithError rid status =>
      simp only [applyOp, PeerResponseSender.FinishWithError]
      exact finish_outgoingWork_le _ _ _ h
  | pauseRequest rid =>
      simp only [applyOp, PeerResponseSender.PauseRequest]
      exact finish_outgoingWork_le _ _ _ h

theorem runOps_outgoingWork_le :
    ∀ (ops : List SenderOp) (s : PeerResponseSender),
      s.outgoingWork ≤ 1 → (runOps s ops).outgoingWork ≤ 1 := by
  intro ops
  induction ops with
  | nil => intro s h; exact h
  | cons op rest ih => intro s h; exact ih _ (applyOp_outgoingWork_le s op h)

/-- Claim C7: under any interleaving of the five caller operations, the occupancy of
the outgoingWork channel never exceeds one, and signalWork is the non-blocking send
on that capacity-one channel: it fills an empty channel and drops the signal
otherwise. -/
theorem C7_single_pending_wakeup (ops : List SenderOp) :
    (runOps PeerResponseSender.initial ops).outgoingWork ≤ 1
    ∧ (∀ s : PeerResponseSender,
        (signalWork s).outgoingWork = if s.outgoingWork = 0 then 1 else s.outgoingWork) := by
  constructor
  · exact runOps_outgoingWork_le ops _ (Nat.zero_le 1)
  · intro s
    unfold signalWork
    by_cases h : s.outgoingWork = 0 <;> simp [h]

/-- Claim C8: each wake-up of the send loop removes the entire builder queue, and the
transport receives exactly one message per non-empty builder, in queue order (the
model is the sequential loop itself, so each send completes its wait before the next
builder is touched). -/
theorem C8_drain_in_enqueue_order (s : PeerResponseSender) (waits : List WaitOutcome) :
    (sendResponseMessages s waits).1.responseBuilders = []
    ∧ (sendResponseMessages s waits).2 =
        (s.responseBuilders.filter (fun b => !b.Empty)).map buildMessage :=
  ⟨rfl, drainBuilders_eq s.responseBuilders waits⟩

/-- Claim C9 counterexample: with two non-empty builders queued, the wait after the
first transport send is resolved by the shutdown signal (ctx.Done) - yet the loop
still performs a second transport send, contradicting the claim that after shutdown
is observed no transport send beyond the in-flight one occurs. -/
theorem C9_counterexample :
    ((sendResponseMessages
        ⟨LinkTracker.new,
         [ResponseBuilder.new.AddResponseCode 0 ResponseStatusCode.requestPaused,
          ResponseBuilder.new.AddResponseCode 1 ResponseStatusCode.requestPaused],
         0⟩
        [WaitOutcome.ctxCancelled]).2).length = 2 := by decide

/-- Claim C9 as amended: Shutdown cancels the scoped context; when the run loop's
select observes it, the loop exits and initiates nothing further; but a drain that is
already in progress still hands every remaining non-empty builder to the transport -
the shutdown outcome of a wait never changes which messages are sent. -/
theorem C9_shutdown_amended :
    (∀ (s : PeerResponseSender) (waits : List WaitOutcome),
        runIteration true s waits = (s, []))
    ∧ (∀ (s : PeerResponseSender) (w w2 : List WaitOutcome),
        (sendResponseMessages s w).2 = (sendResponseMessages s w2).2) :=
  ⟨fun s waits => rfl,
   fun s w w2 => by
    show drainBuilders s.responseBuilders w = drainBuilders s.responseBuilders w2
    rw [drainBuilders_eq, drainBuilders_eq]⟩

theorem builderInv_new : builderInv ResponseBuilder.new :=
  ⟨rfl, Or.inl (Nat.zero_le _)⟩

theorem builderInv_of_blocks_eq (rb rb2 : ResponseBuilder)
    (hb : rb2.outgoingBlocks = rb.outgoingBlocks) (hs : rb2.blkSize = rb.blkSize)
    (h : builderInv rb) : builderInv rb2 := by
  unfold builderInv at h ⊢
  rw [hb, hs]
  exact h

theorem builderInv_addBlock_new (blk : Block) :
    builderInv (ResponseBuilder.new.AddBlock blk) := by
  refine ⟨by simp [ResponseBuilder.AddBlock, ResponseBuilder.new], ?_⟩
  by_cases h : blk.data.length ≤ maxBlockSize
  · left
    simp [ResponseBuilder.AddBlock, ResponseBuilder.new]
    omega
  · right
    exact ⟨blk, [], by simp [ResponseBuilder.AddBlock, ResponseBuilder.new],
      by omega, by simp⟩

theorem builderInv_addBlock_zero (rb : ResponseBuilder) (blk : Block)
    (h : builderInv rb) (hz : blk.data.length = 0) : builderInv (rb.AddBlock blk) := by
  obtain ⟨hsum, hcase⟩ := h
  constructor
  · simp [ResponseBuilder.AddBlock, List.map_append, List.sum_append, hsum, hz]
  · rcases hcase with hle | ⟨b0, rest, hblocks, hbig, hzero⟩
    · left
      simp only [ResponseBuilder.AddBlock, hz]
      omega
    · right
      refine ⟨b0, rest ++ [blk], ?_, hbig, ?_⟩
      · simp [ResponseBuilder.AddBlock, hblocks]
      · intro r hr
        rcases List.mem_append.mp hr with h1 | h2
        · exact hzero r h1
        · rw [List.mem_singleton.mp h2]
          exact hz

theorem builderInv_addBlock_fits (rb : ResponseBuilder) (blk : Block)
    (h : builderInv rb) (hfit : rb.blkSize + blk.data.length ≤ maxBlockSize) :
    builderInv (rb.AddBlock blk) := by
  obtain ⟨hsum, _⟩ := h
  constructor
  · simp [ResponseBuilder.AddBlock, List.map_append, List.sum_append, hsum]
  · left
    simp only [ResponseBuilder.AddBlock]
    omega

theorem shouldBeginNewResponse_eq_false (bs : List ResponseBuilder) (k : Nat)
    (h : shouldBeginNewResponse bs k = false) :
    bs ≠ [] ∧ (k = 0 ∨ (lastBuilder bs).BlockSize + k ≤ maxBlockSize) := by
  unfold shouldBeginNewResponse at h
  by_cases h1 : bs.isEmpty
  · rw [if_pos h1] at h
    exact absurd h (by simp)
  · constructor
    · intro h0
      rw [h0] at h1
      exact h1 rfl
    · rw [if_neg h1] at h
      by_cases h2 : k = 0
      · exact Or.inl h2
      · rw [if_neg h2] at h
        have h3 : ¬ (maxBlockSize < (lastBuilder bs).BlockSize + k) := by
          simpa using h
        omega

theorem sendersOK_buildResponse_records (s : PeerResponseSender) (k : Nat)
    (f : ResponseBuilder → ResponseBuilder)
    (hf : ∀ rb, (f rb).outgoingBlocks = rb.outgoingBlocks ∧ (f rb).blkSize = rb.blkSize)
    (hs : sendersBuildersOK s) : sendersBuildersOK (buildResponse s k f).1 := by
  intro b hb
  rw [buildResponse_responseBuilders] at hb
  by_cases h : shouldBeginNewResponse s.responseBuilders k
  · rw [if_pos h] at hb
    rcases List.mem_append.mp hb with h1 | h2
    · exact hs b h1
    · rw [List.mem_singleton.mp h2]
      exact builderInv_of_blocks_eq _ _ (hf _).1 (hf _).2 builderInv_new
  · rw [if_neg h] at hb
    have hfalse : shouldBeginNewResponse s.responseBuilders k = false := by simpa using h
    have hne := (shouldBeginNewResponse_eq_false _ _ hfalse).1
    rcases List.mem_append.mp hb with h1 | h2
    · exact hs b ((List.dropLast_sublist _).subset h1)
    · rw [List.mem_singleton.mp h2]
      exact builderInv_of_blocks_eq _ _ (hf _).1 (hf _).2 (hs _ (lastBuilder_mem _ hne))

theorem sendersOK_buildResponse_block (s : PeerResponseSender) (blk : Block)
    (g : ResponseBuilder → ResponseBuilder)
    (hg : ∀ rb, (g rb).outgoingBlocks = rb.outgoingBlocks ∧ (g rb).blkSize = rb.blkSize)
    (hs : sendersBuildersOK s) :
    sendersBuildersOK
      (buildResponse s blk.data.length (fun rb => g (rb.AddBlock blk))).1 := by
  intro b hb
  rw [buildResponse_responseBuilders] at hb
  by_cases h : shouldBeginNewResponse s.responseBuilders blk.data.length
  · rw [if_pos h] at hb
    rcases List.mem_append.mp hb with h1 | h2
    · exact hs b h1
    · rw [List.mem_singleton.mp h2]
      exact builderInv_of_blocks_eq _ _ (hg _).1 (hg _).2 (builderInv_addBlock_new blk)
  · rw [if_neg h] at hb
    have hfalse : shouldBeginNewResponse s.responseBuilders blk.data.length = false := by
      simpa using h
    obtain ⟨hne, hcond⟩ := shouldBeginNewResponse_eq_false _ _ hfalse
    rcases List.mem_append.mp hb with h1 | h2
    · exact hs b ((List.dropLast_sublist _).subset h1)
    · rw [List.mem_singleton.mp h2]
      have hinv := hs _ (lastBuilder_mem _ hne)
      have hadd : builderInv ((lastBuilder s.responseBuilders).AddBlock blk) := by
        rcases hcond with hk0 | hle
        · exact builderInv_addBlock_zero _ _ hinv hk0
        · exact builderInv_addBlock_fits _ _ hinv hle
      exact builderInv_of_blocks_eq _ _ (hg _).1 (hg _).2 hadd

theorem sendersOK_ifSignal (r : PeerResponseSender × Bool)
    (h : sendersBuildersOK r.1) :
    sendersBuildersOK (if r.2 then signalWork r.1 else r.1) := by
  intro b hb
  rw [ifSignal_responseBuilders] at hb
  exact h b hb

theorem sendersOK_setTracker (s : PeerResponseSender) (lt : LinkTracker)
    (hs : sendersBuildersOK s) :
    sendersBuildersOK { s with linkTracker := lt } := hs

theorem sendersOK_applyOp (s : PeerResponseSender) (op : SenderOp)
    (hs : sendersBuildersOK s) : sendersBuildersOK (applyOp s op) := by
  cases op with
  | sendResponse rid target d =>
      simp only [applyOp, PeerResponseSender.SendResponse]
      apply sendersOK_ifSignal
      cases hsb : (d.isSome && (s.linkTracker.BlockRefCount target == 0)) with
      | true =>
          have hds : d.isSome = true := by
            cases d with
            | none => simp at hsb
            | some l => rfl
          obtain ⟨l, rfl⟩ := Option.isSome_iff_exists.mp hds
          exact sendersOK_buildResponse_block _ ⟨target, l⟩
            (fun rb => rb.AddLink rid target (some l).isSome) (fun rb => ⟨rfl, rfl⟩)
            (sendersOK_setTracker s _ hs)
      | false =>
          exact sendersOK_buildResponse_records _ _ _ (fun rb => ⟨rfl, rfl⟩)
            (sendersOK_setTracker s _ hs)
  | sendExtensionData rid ext =>
      simp only [applyOp, PeerResponseSender.SendExtensionData]
      apply sendersOK_ifSignal
      exact sendersOK_buildResponse_records _ _ _ (fun rb => ⟨rfl, rfl⟩) hs
  | finishRequest rid =>
      simp only [applyOp, PeerResponseSender.FinishRequest, PeerResponseSender.finish]
      apply sendersOK_ifSignal
      exact sendersOK_buildResponse_records _ _ _ (fun rb => ⟨rfl, rfl⟩)
        (sendersOK_setTracker s _ hs)
  | finishWithError rid status =>
      simp only [applyOp, PeerResponseSender.FinishWithError, PeerResponseSender.finish]
      apply sendersOK_ifSignal
      exact sendersOK_buildResponse_records _ _ _ (fun rb => ⟨rfl, rfl⟩)
        (sendersOK_setTracker s _ hs)
  | pauseRequest rid =>
      simp only [applyOp, PeerResponseSender.PauseRequest, PeerResponseSender.finish]
      apply sendersOK_ifSignal
      exact sendersOK_buildResponse_records _ _ _ (fun rb => ⟨rfl, rfl⟩) hs

theorem sendersOK_runOps :
    ∀ (ops : List SenderOp) (s : PeerResponseSender),
      sendersBuildersOK s → sendersBuildersOK (runOps s ops) := by
  intro ops
  induction ops with
  | nil => intro s h; exact h
  | cons op rest ih => intro s h; exact ih _ (sendersOK_applyOp s op h)

theorem shouldBeginNewResponse_iff (bs : List ResponseBuilder) (k : Nat) :
    shouldBeginNewResponse bs k = true ↔
      (bs = [] ∨ (0 < k ∧ maxBlockSize < (lastBuilder bs).BlockSize + k)) := by
  unfold shouldBeginNewResponse
  by_cases h1 : bs.isEmpty
  · have h0 : bs = [] := by simpa using h1
    simp [h1, h0]
  · have hne : ¬ bs = [] := by simpa using h1
    by_cases h2 : k = 0
    · simp [h1, h2, hne]
    · have hpos : 0 < k := Nat.pos_of_ne_zero h2
      simp [h1, h2, hne, hpos]

/-- Claim C2 counterexample: schedule one block one byte over the cap, then a block
with a non-nil empty payload for a fresh link (nothing to dedup against, so it is
scheduled with wire size zero and joins the current builder). The single builder's
block-byte total exceeds the cap while it holds two blocks - the oversized block is
not alone in its own builder, contradicting the claim's sole stated exception. -/
theorem runOps_two_sends (d : Bytes) :
    (runOps PeerResponseSender.initial
      [SenderOp.sendResponse 1 1 (some d), SenderOp.sendResponse 1 2 (some [])]) =
      ⟨⟨[(1, [(1, true), (2, true)])]⟩,
       [⟨[ResponseRecord.link 1 1 true, ResponseRecord.link 1 2 true],
         [⟨1, d⟩, ⟨2, ([] : Bytes)⟩],
         0 + d.length + List.length ([] : Bytes)⟩], 1⟩ := rfl

theorem cx_part1 : (runOps PeerResponseSender.initial
    [SenderOp.sendResponse 1 1 (some bigData),
     SenderOp.sendResponse 1 2 (some [])]).responseBuilders = [oversizedBuilder] :=
  congrArg PeerResponseSender.responseBuilders (runOps_two_sends bigData)

theorem bigData_length : bigData.length = maxBlockSize + 1 :=
  List.length_replicate _ _

theorem builder_blkSize (recs : List ResponseRecord) (blocks : List Block) (n : Nat) :
    (⟨recs, blocks, n⟩ : ResponseBuilder).BlockSize = n := rfl

theorem cx_part2 : maxBlockSize < oversizedBuilder.BlockSize := by
  show maxBlockSize < (⟨[ResponseRecord.link 1 1 true, ResponseRecord.link 1 2 true],
      [⟨1, bigData⟩, ⟨2, ([] : Bytes)⟩],
      0 + bigData.length + List.length ([] : Bytes)⟩ : ResponseBuilder).BlockSize
  rw [builder_blkSize, bigData_length, List.length_nil]
  omega

theorem cx_part3 : oversizedBuilder.outgoingBlocks.length = 2 := rfl

theorem C2_counterexample :
    ∃ b : ResponseBuilder,
      (runOps PeerResponseSender.initial
        [SenderOp.sendResponse 1 1 (some bigData),
         SenderOp.sendResponse 1 2 (some [])]).responseBuilders = [b]
      ∧ maxBlockSize < b.BlockSize ∧ b.outgoingBlocks.length = 2 :=
  ⟨oversizedBuilder, cx_part1, cx_part2, cx_part3⟩

/-- Claim C2 as amended: across every caller-operation sequence, every builder's
cumulative block-byte total is within the 512 KiB cap, except a builder whose first
block alone exceeds the cap: that block was opened in a fresh builder, the builder's
byte total always equals that one block's own size, and any further blocks it ever
receives have size zero (non-nil empty payloads). A new builder is opened exactly
when the queue is empty or a block of size blkSize > 0 would push the last builder's
BlockSize() past the cap. -/
theorem C2_batching_bound_amended (ops : List SenderOp) :
    (∀ b ∈ (runOps PeerResponseSender.initial ops).responseBuilders,
        b.BlockSize ≤ maxBlockSize ∨
        ∃ blk rest, b.outgoingBlocks = blk :: rest ∧ maxBlockSize < blk.data.length ∧
          b.BlockSize = blk.data.length ∧ ∀ r ∈ rest, r.data.length = 0)
    ∧ (∀ (bs : List ResponseBuilder) (k : Nat),
        shouldBeginNewResponse bs k = true ↔
          (bs = [] ∨ (0 < k ∧ maxBlockSize < (lastBuilder bs).BlockSize + k))) := by
  constructor
  · intro b hb
    have hinit : sendersBuildersOK PeerResponseSender.initial := by
      intro b0 hb0
      simp [PeerResponseSender.initial] at hb0
    obtain ⟨hsum, hcase⟩ := sendersOK_runOps ops PeerResponseSender.initial hinit b hb
    rcases hcase with hle | ⟨blk, rest, hblocks, hbig, hzero⟩
    · exact Or.inl hle
    · right
      refine ⟨blk, rest, hblocks, hbig, ?_, hzero⟩
      have hrest0 : (rest.map (fun r => r.data.length)).sum = 0 := by
        apply List.sum_eq_zero
        intro x hx
        obtain ⟨r, hr, rfl⟩ := List.mem_map.mp hx
        exact hzero r hr
      rw [ResponseBuilder.BlockSize, hsum, hblocks]
      simp [hrest0]
  · exact shouldBeginNewResponse_iff

/-- Witness for C2's amended theorem at a one-block trace within the cap. -/
theorem C2_batching_bound_amended_witness :
    (lastBuilder (runOps PeerResponseSender.initial
        [SenderOp.sendResponse 1 1 (some [5])]).responseBuilders
      ∈ (runOps PeerResponseSender.initial
        [SenderOp.sendResponse 1 1 (some [5])]).responseBuilders)
    ∧ ((lastBuilder (runOps PeerResponseSender.initial
          [SenderOp.sendResponse 1 1 (some [5])]).responseBuilders).BlockSize
          ≤ maxBlockSize ∨
        ∃ blk rest,
          (lastBuilder (runOps PeerResponseSender.initial
            [SenderOp.sendResponse 1 1 (some [5])]).responseBuilders).outgoingBlocks
            = blk :: rest ∧
          maxBlockSize < blk.data.length ∧
          (lastBuilder (runOps PeerResponseSender.initial
            [SenderOp.sendResponse 1 1 (some [5])]).responseBuilders).BlockSize
            = blk.data.length ∧
          ∀ r ∈ rest, r.data.length = 0) :=
  ⟨by decide,
   (C2_batching_bound_amended [SenderOp.sendResponse 1 1 (some [5])]).1 _ (by decide)⟩

/-- Claim C10: a drained batch produces exactly one transport call per non-empty
builder: empty builders are skipped, and a builder whose Build reports an error is
still sent (with whatever responses and blocks Build returned) without aborting the
rest of the drain. -/
theorem C10_build_error_not_fatal (s : PeerResponseSender) (waits : List WaitOutcome) :
    ((sendResponseMessages s waits).2).length =
        (s.responseBuilders.filter (fun b => !b.Empty)).length
    ∧ (∀ b ∈ s.responseBuilders, b.Empty = false →
        buildMessage b ∈ (sendResponseMessages s waits).2)
    ∧ ((∀ b ∈ s.responseBuilders, b.Empty = true) →
        (sendResponseMessages s waits).2 = []) := by
  refine ⟨?_, ?_, ?_⟩
  · show (drainBuilders s.responseBuilders waits).length = _
    rw [drainBuilders_eq, List.length_map]
  · intro b hb hne
    show buildMessage b ∈ drainBuilders s.responseBuilders waits
    rw [drainBuilders_eq]
    exact List.mem_map_of_mem _ (List.mem_filter.mpr ⟨hb, by simp [hne]⟩)
  · intro hall
    show drainBuilders s.responseBuilders waits = []
    rw [drainBuilders_eq]
    have hnil : s.responseBuilders.filter (fun b => !b.Empty) = [] := by
      rw [List.filter_eq_nil_iff]
      intro b hb
      simp [hall b hb]
    rw [hnil]
    rfl

/-- Witness for C10 at a builder that holds a block but no response records, the one
state in which Build reports an error: its message is still handed to the transport. -/
theorem C10_build_error_not_fatal_witness :
    ((⟨[], [⟨1, [7]⟩], 1⟩ : ResponseBuilder) ∈
        (⟨LinkTracker.new, [ResponseBuilder.new, ⟨[], [⟨1, [7]⟩], 1⟩], 0⟩ :
          PeerResponseSender).responseBuilders)
    ∧ (⟨[], [⟨1, [7]⟩], 1⟩ : ResponseBuilder).Empty = false
    ∧ (⟨[], [⟨1, [7]⟩], 1⟩ : ResponseBuilder).Build.2.2 = true
    ∧ buildMessage ⟨[], [⟨1, [7]⟩], 1⟩ ∈
        (sendResponseMessages
          ⟨LinkTracker.new, [ResponseBuilder.new, ⟨[], [⟨1, [7]⟩], 1⟩], 0⟩ []).2 :=
  ⟨by decide, by decide, by decide,
   (C10_build_error_not_fatal _ []).2.1 _ (by decide) (by decide)⟩

theorem linkTracker_finish_complete_iff (lt : LinkTracker) (rid : RequestID) :
    (lt.FinishRequest rid).1 = true ↔
      ∀ p ∈ lt.byRequest, p.1 = rid → ∀ e ∈ p.2, e.2 = true := by
  unfold LinkTracker.FinishRequest
  constructor
  · intro h p hp hrid e he
    have h1 := List.all_eq_true.mp h p (List.mem_filter.mpr ⟨hp, by simp [hrid]⟩)
    exact List.all_eq_true.mp h1 e he
  · intro h
    apply List.all_eq_true.mpr
    intro p hp
    apply List.all_eq_true.mpr
    intro e he
    obtain ⟨hpmem, hpk⟩ := List.mem_filter.mp hp
    exact h p hpmem (by simpa using hpk) e he

/-- Claim C3: FinishRequest returns RequestCompletedFull exactly when every link the
request traversed had its block present (and RequestCompletedPartial in every other
case), and it appends exactly that status code as a response record for the request
to the current builder (opening one only when the queue is empty). -/
theorem C3_finish_request_classification (s : PeerResponseSender) (rid : RequestID) :
    ((s.FinishRequest rid).2 = ResponseStatusCode.requestCompletedFull ↔
      ∀ p ∈ s.linkTracker.byRequest, p.1 = rid → ∀ e ∈ p.2, e.2 = true)
    ∧ ((s.FinishRequest rid).2 = ResponseStatusCode.requestCompletedFull ∨
       (s.FinishRequest rid).2 = ResponseStatusCode.requestCompletedPartial)
    ∧ (s.FinishRequest rid).1.responseBuilders =
        (if s.responseBuilders.isEmpty
         then [ResponseBuilder.new.AddResponseCode rid (s.FinishRequest rid).2]
         else s.responseBuilders.dropLast ++
           [(lastBuilder s.responseBuilders).AddResponseCode rid
             (s.FinishRequest rid).2]) := by
  have hstat : (s.FinishRequest rid).2 =
      (if (s.linkTracker.FinishRequest rid).1 then ResponseStatusCode.requestCompletedFull
       else ResponseStatusCode.requestCompletedPartial) := rfl
  refine ⟨?_, ?_, ?_⟩
  · rw [hstat]
    cases hb : (s.linkTracker.FinishRequest rid).1 with
    | false =>
        simp only [Bool.false_eq_true, if_false]
        constructor
        · intro h
          exact absurd h (by simp)
        · intro hP
          have := (linkTracker_finish_complete_iff s.linkTracker rid).mpr hP
          rw [this] at hb
          exact absurd hb (by simp)
    | true =>
        simp only [if_true]
        simp only [true_iff]
        exact (linkTracker_finish_complete_iff s.linkTracker rid).mp hb
  · rw [hstat]
    cases hb : (s.linkTracker.FinishRequest rid).1 <;> simp
  · have hfin : (s.FinishRequest rid).1 =
        ({ s with linkTracker := (s.linkTracker.FinishRequest rid).2 } :
          PeerResponseSender).finish rid (s.FinishRequest rid).2 := rfl
    rw [hfin, finish_responseBuilders]

/-- Claim C4: the descriptor SendResponse returns reports the call's link, the
logical block size len(data), and a wire size equal to len(data) when the block was
scheduled and zero when it was deduplicated or the data was nil. -/
theorem C4_blockdata_descriptor (s : PeerResponseSender) (rid : RequestID) (t : Link)
    (d : Option Bytes) :
    ((s.SendResponse rid t d).2).Link = t
    ∧ ((s.SendResponse rid t d).2).BlockSize = dataLen d
    ∧ ((s.SendResponse rid t d).2).BlockSizeOnWire =
        (if (s.SendResponse rid t d).2.sendBlock then dataLen d else 0)
    ∧ ((s.SendResponse rid t d).2.sendBlock
        = (d.isSome && (s.linkTracker.BlockRefCount t == 0))) := by
  refine ⟨rfl, rfl, ?_, rfl⟩
  rw [sendResponse_bd]
  unfold blockData.BlockSizeOnWire
  cases hb : (d.isSome && (s.linkTracker.BlockRefCount t == 0)) <;> simp

/-- Claim C5: every administrative record - a status appended through finish (the
common path of FinishRequest, FinishWithError and PauseRequest), an extension, or a
link-presence record without a block payload - is appended to the latest builder
regardless of its accumulated size; a new builder is opened only when the queue is
empty (shouldBeginNewResponse at size zero is exactly emptiness). -/
theorem C5_admin_records_append_to_latest :
    (∀ bs : List ResponseBuilder, shouldBeginNewResponse bs 0 = bs.isEmpty)
    ∧ (∀ (s : PeerResponseSender) (rid : RequestID) (status : ResponseStatusCode),
        (s.finish rid status).responseBuilders =
          if s.responseBuilders.isEmpty
          then [ResponseBuilder.new.AddResponseCode rid status]
          else s.responseBuilders.dropLast ++
            [(lastBuilder s.responseBuilders).AddResponseCode rid status])
    ∧ (∀ (s : PeerResponseSender) (rid : RequestID) (ext : ExtensionData),
        (s.SendExtensionData rid ext).responseBuilders =
          if s.responseBuilders.isEmpty
          then [ResponseBuilder.new.AddExtensionData rid ext]
          else s.responseBuilders.dropLast ++
            [(lastBuilder s.responseBuilders).AddExtensionData rid ext])
    ∧ (∀ (s : PeerResponseSender) (rid : RequestID) (t : Link) (d : Option Bytes),
        (s.SendResponse rid t d).2.sendBlock = false →
          (s.SendResponse rid t d).1.responseBuilders =
            if s.responseBuilders.isEmpty
            then [ResponseBuilder.new.AddLink rid t d.isSome]
            else s.responseBuilders.dropLast ++
              [(lastBuilder s.responseBuilders).AddLink rid t d.isSome]) := by
  refine ⟨shouldBeginNewResponse_zero, finish_responseBuilders,
    sendExtensionData_responseBuilders, ?_⟩
  intro s rid t d hsb
  have hsb2 : (d.isSome && (s.linkTracker.BlockRefCount t == 0)) = false := by
    rw [sendResponse_bd] at hsb
    exact hsb
  simp only [PeerResponseSender.SendResponse]
  rw [ifSignal_responseBuilders, hsb2]
  have hK : (⟨t, dataLen d, false⟩ : blockData).BlockSizeOnWire = 0 := rfl
  rw [hK]
  simp only [Bool.false_eq_true, if_false]
  rw [buildResponse_zero]

/-- Witness for C5 at a SendResponse call with nil data: only a link-presence record
is appended. -/
theorem C5_admin_records_append_to_latest_witness :
    ((PeerResponseSender.initial.SendResponse 0 0 none).2.sendBlock = false)
    ∧ (PeerResponseSender.initial.SendResponse 0 0 none).1.responseBuilders =
        (if PeerResponseSender.initial.responseBuilders.isEmpty
         then [ResponseBuilder.new.AddLink 0 0 (none : Option Bytes).isSome]
         else PeerResponseSender.initial.responseBuilders.dropLast ++
           [(lastBuilder PeerResponseSender.initial.responseBuilders).AddLink 0 0
             (none : Option Bytes).isSome]) :=
  ⟨by decide,
   C5_admin_records_append_to_latest.2.2.2 PeerResponseSender.initial 0 0 none
     (by decide)⟩

/-- Claim C6: FinishWithError appends exactly the externally supplied status code for
the request (never the computed Full/Partial result) and clears every LinkTracker
entry of that request. -/
theorem C6_finish_with_error (s : PeerResponseSender) (rid : RequestID)
    (status : ResponseStatusCode) :
    ((s.FinishWithError rid status).linkTracker.byRequest.all
        (fun p => p.1 != rid)) = true
    ∧ (s.FinishWithError rid status).responseBuilders =
        (if s.responseBuilders.isEmpty
         then [ResponseBuilder.new.AddResponseCode rid status]
         else s.responseBuilders.dropLast ++
           [(lastBuilder s.responseBuilders).AddResponseCode rid status]) := by
  constructor
  · have htr : (s.FinishWithError rid status).linkTracker =
        (s.linkTracker.FinishRequest rid).2 := by
      simp only [PeerResponseSender.FinishWithError, PeerResponseSender.finish]
      rw [ifSignal_linkTracker, buildResponse_linkTracker]
    rw [htr]
    apply List.all_eq_true.mpr
    intro p hp
    simpa using (List.mem_filter.mp hp).2
  · have hfin : s.FinishWithError rid status =
        ({ s with linkTracker := (s.linkTracker.FinishRequest rid).2 } :
          PeerResponseSender).finish rid status := rfl
    rw [hfin, finish_responseBuilders]


end GraphSync
